import Mathlib

/-!
Verification of the steamm-ox swap-quoting library.

The development shallowly embeds the Rust sources:
  * the fee shell (`compute_swap_fees`, `get_quote`, `to_underlying`, `to_b_token`),
  * the `Decimal` WAD-scaled arithmetic,
  * the `FixedPoint64` Q64.64 kernel (`from`, `from_rational`, `mul`, `div`,
    `pow`, `log2_64`, `ln_plus_64ln2`, `multiply_divide`),
  * the legacy logarithmic-invariant quoter (Newton-Raphson), and
  * the new Curve-style stable-swap quoter (`get_d`, `get_y`),
and proves or refutes the specified properties.

Machine integers are modelled as `Nat` carrying the bit-width bounds of the
source (64, 128 or 256 bits); wrap-around or overflow checks are written out
explicitly exactly where the source performs them.  A Rust `Result::Err` is
`RustRes.err`; a Rust panic (a failed `unwrap`, an explicit `panic`-macro call,
or an arithmetic overflow abort) is `RustRes.abort`.  The 256-bit unsigned
multiplications inside the stable-swap solvers abort on overflow in the
source; every concrete instance appearing below stays far under `2 ^ 256`,
where the `Nat` model and the 256-bit integers agree exactly.
-/

namespace SteammOx

/-- Result of running a piece of Rust code: a normal value, a recoverable
`anyhow` error, or a process abort (panic / failed unwrap / overflow). -/
inductive RustRes (α : Type) where
  | ok : α → RustRes α
  | err : String → RustRes α
  | abort : String → RustRes α
deriving DecidableEq, Repr

namespace RustRes

def bind {α β : Type} : RustRes α → (α → RustRes β) → RustRes β
  | ok a, f => f a
  | err e, _ => err e
  | abort e, _ => abort e

instance : Monad RustRes where
  pure := ok
  bind := bind

/-- `Result::unwrap`: an `Err` becomes a panic. -/
def unwrapR {α : Type} : RustRes α → RustRes α
  | ok a => ok a
  | err e => abort e
  | abort e => abort e

end RustRes

/-- `2 ^ 64`, the exclusive upper bound of `u64`. -/
def U64_BOUND : Nat := 2 ^ 64

/-- `2 ^ 128`, the exclusive upper bound of `u128`. -/
def U128_BOUND : Nat := 2 ^ 128

/-- `2 ^ 256`, the exclusive upper bound of the 256-bit unsigned integer. -/
def U256_BOUND : Nat := 2 ^ 256

/-- `10 ^ 18`, the `Decimal` scale factor. -/
def WAD : Nat := 10 ^ 18

/-- Basis-points scale factor. -/
def BPS_SCALE : Nat := 10000

/-- Share of the total fees routed to the protocol, over `BPS_SCALE`. -/
def PROTOCOL_FEE_NUMERATOR : Nat := 2000

/-- `num_divide_and_round_up` from `math/mod.rs`: divide rounding up
(the caller guarantees `y ≠ 0`). -/
def num_divide_and_round_up (x y : Nat) : Nat :=
  if x % y = 0 then x / y else x / y + 1

/-- `safe_mul_div_up` from `math/mod.rs`: `⌈x * y / z⌉` computed in 128 bits
(`x`, `y`, `z` are `u64`, so `x * y` cannot overflow `u128`), failing on
`z = 0` and on a result exceeding `u64`. -/
def safe_mul_div_up (x y z : Nat) : RustRes Nat :=
  if z = 0 then .err "Division by zero"
  else
    let res := num_divide_and_round_up (x * y) z
    if res > U64_BOUND - 1 then .err "Math overflow" else .ok res

/-- The pool-fee fraction selected by `compute_swap_fees` in `lib.rs`: the
override numerator (over `BPS_SCALE`) is used iff it is strictly larger as a
fraction of `BPS_SCALE` than the default `swap_fee_bps`. -/
def select_pool_fee (swap_fee_bps : Nat) (override_num : Option Nat) : Nat × Nat :=
  match override_num with
  | some o =>
      if o * BPS_SCALE > swap_fee_bps * BPS_SCALE then (o, BPS_SCALE)
      else (swap_fee_bps, BPS_SCALE)
  | none => (swap_fee_bps, BPS_SCALE)

/-- `compute_swap_fees` from `lib.rs`: returns `(protocol_fees, pool_fees)`.
`total_fees - protocol_fees` cannot underflow because
`⌈t * 2000 / 10000⌉ ≤ t`, so plain truncated subtraction is exact. -/
def compute_swap_fees (amount swap_fee_bps : Nat) (override_num : Option Nat) :
    RustRes (Nat × Nat) := do
  let nd := select_pool_fee swap_fee_bps override_num
  let total_fees ← safe_mul_div_up amount nd.1 nd.2
  let protocol_fees ← safe_mul_div_up total_fees PROTOCOL_FEE_NUMERATOR BPS_SCALE
  pure (protocol_fees, total_fees - protocol_fees)

/-- The quote record produced for a swap (`lib.rs`). -/
structure SwapQuote where
  amount_in : Nat
  amount_out : Nat
  protocol_fees : Nat
  pool_fees : Nat
  a2b : Bool
deriving DecidableEq, Repr

/-- `get_quote` from `lib.rs`: splits fees off the gross `amount_out`.
The source calls `compute_swap_fees(..).unwrap()`, so a fee error panics.
Rust `saturating_sub` is exactly `Nat` truncated subtraction. -/
def get_quote (amount_in amount_out : Nat) (a2b : Bool) (swap_fee_bps : Nat)
    (override_num : Option Nat) : RustRes SwapQuote :=
  match compute_swap_fees amount_out swap_fee_bps override_num with
  | .ok (protocol_fees, pool_fees) =>
      .ok ⟨amount_in, amount_out - protocol_fees - pool_fees,
           protocol_fees, pool_fees, a2b⟩
  | .err e => .abort e
  | .abort e => .abort e

/-! ## Decimal (`math/decimal.rs`)

A `Decimal` is its raw WAD-scaled 256-bit value (`raw / 10 ^ 18` is the
logical number).  Checked 256-bit primitives return `none` exactly when the
source's `U256` checked operations do. -/

/-- `U256::checked_add`. -/
def u256_checked_add (a b : Nat) : Option Nat :=
  if a + b < U256_BOUND then some (a + b) else none

/-- `U256::checked_sub`. -/
def u256_checked_sub (a b : Nat) : Option Nat :=
  if b ≤ a then some (a - b) else none

/-- `U256::checked_mul`. -/
def u256_checked_mul (a b : Nat) : Option Nat :=
  if a * b < U256_BOUND then some (a * b) else none

/-- `U256::checked_div` (rounds toward zero, fails only on a zero divisor). -/
def u256_checked_div (a b : Nat) : Option Nat :=
  if b = 0 then none else some (a / b)

namespace Decimal

/-- `Decimal::from(v: u64)`: raw value `v * WAD` (cannot overflow 256 bits). -/
def ofU64 (v : Nat) : Nat := WAD * v

/-- `Decimal::checked_add`. -/
def checked_add (a b : Nat) : Option Nat := u256_checked_add a b

/-- `Decimal::checked_sub`. -/
def checked_sub (a b : Nat) : Option Nat := u256_checked_sub a b

/-- `Decimal::checked_mul`: `a * b / WAD`, falling back to downscaling the
larger operand first when the raw product would overflow 256 bits. -/
def checked_mul (a b : Nat) : Option Nat :=
  match u256_checked_mul a b with
  | some v => u256_checked_div v WAD
  | none =>
      if b ≤ a then
        (u256_checked_div a WAD).bind fun v => u256_checked_mul v b
      else
        (u256_checked_div b WAD).bind fun v => u256_checked_mul v a

/-- `Decimal::checked_div`: `a * WAD / b`, falling back when `a * WAD`
would overflow 256 bits. -/
def checked_div (a b : Nat) : Option Nat :=
  match u256_checked_mul a WAD with
  | some v => u256_checked_div v b
  | none =>
      if b ≤ a then
        (u256_checked_div a b).bind fun v => u256_checked_mul v WAD
      else
        (u256_checked_div b WAD).bind fun v => u256_checked_div a v

/-- `Decimal::checked_floor::<u64>()`: `raw / WAD`, failing when the integer
part does not fit in `u64`. -/
def checked_floor_u64 (a : Nat) : Option Nat :=
  let v := a / WAD
  if v < U64_BOUND then some v else none

/-- `Decimal::almost_eq(other, precision)` from `math/decimal.rs`: compares
the raw difference against `10 ^ precision` **in the raw scale** (the
source's doc comment promises `10 ^ (18 - precision)` instead; see the
C8 analysis below). -/
def almost_eq (a b : Nat) (precision : Nat) : Bool :=
  if a = b then true
  else if a < b then b - a < 10 ^ precision
  else a - b < 10 ^ precision

end Decimal

/-- `to_underlying` from `lib.rs`: `⌊b_amount * ratio⌋`, with both the
multiplication and the `u64` floor unwrapped (a failure panics). -/
def to_underlying (btoken_amount : Nat) (ratioRaw : Nat) : RustRes Nat :=
  match Decimal.checked_mul (Decimal.ofU64 btoken_amount) ratioRaw with
  | none => .abort "to_underlying: mul overflow"
  | some v =>
      match Decimal.checked_floor_u64 v with
      | none => .abort "to_underlying: floor overflow"
      | some n => .ok n

/-- `to_b_token` from `lib.rs`: `⌊amount / ratio⌋`, unwrapped. -/
def to_b_token (amount : Nat) (ratioRaw : Nat) : RustRes Nat :=
  match Decimal.checked_div (Decimal.ofU64 amount) ratioRaw with
  | none => .abort "to_b_token: div failure"
  | some v =>
      match Decimal.checked_floor_u64 v with
      | none => .abort "to_b_token: floor overflow"
      | some n => .ok n

/-! ## FixedPoint64 (`math/fixed_point.rs`)

A `FixedPoint64` is its raw `u128` value (`raw / 2 ^ 64` is the logical
number).  `MAX_U128 = 2 ^ 128 - 1`; `SCALE_64 = 2 ^ 64` is the
representation of one. -/

/-- `ln 2` in Q64.64, the constant `LN2` of `fixed_point.rs`. -/
def LN2 : Nat := 12786308645202655660

/-- `2 ^ 64`, the Q64.64 representation of `1`. -/
def SCALE_64 : Nat := 2 ^ 64

namespace FixedPoint64

/-- `FixedPoint64::new`: the source checks `value > MAX_U128` (never true for
an actual `u128`, but kept for fidelity). -/
def new (value : Nat) : RustRes Nat :=
  if value > U128_BOUND - 1 then .err "Value out of range" else .ok value

/-- `FixedPoint64::from(value: u128)` (`from` is a Lean keyword, hence
`from_u128`): `value.checked_shl(64)`.  A `u128` shift by 64 never returns
`None` (64 < 128); the bits shifted past position 127 are discarded, hence
the `% 2 ^ 128`. -/
def from_u128 (value : Nat) : RustRes Nat :=
  new ((value * 2 ^ 64) % U128_BOUND)

/-- `FixedPoint64::from_rational(num, den) = (num << 64) / den` with the
source's zero-divisor, underflow-to-zero and range checks.  The `u128`
left shift wraps exactly as in `from`. -/
def from_rational (numerator denominator : Nat) : RustRes Nat :=
  if denominator = 0 then .err "Zero division"
  else
    let scaled_numerator := (numerator * 2 ^ 64) % U128_BOUND
    let quotient := scaled_numerator / denominator
    if quotient = 0 ∧ numerator ≠ 0 then .err "Result too small"
    else if quotient > U128_BOUND - 1 then .err "Result too large"
    else new quotient

/-- `to_u128_down`: truncate the fractional bits. -/
def to_u128_down (value : Nat) : Nat := value >>> 64

/-- `FixedPoint64::add` (`u128` checked). -/
def add (x y : Nat) : RustRes Nat :=
  if x + y < U128_BOUND then new (x + y) else .err "Addition overflow"

/-- `FixedPoint64::sub` (fails on a negative result). -/
def sub (x y : Nat) : RustRes Nat :=
  if x < y then .err "Negative result" else new (x - y)

/-- `FixedPoint64::mul`: `(x * y) >> 64` via 256-bit intermediates (which
cannot overflow for two `u128` operands), failing when the result does not
convert back to `u128`. -/
def mul (x y : Nat) : RustRes Nat :=
  let product := (x * y) >>> 64
  if product < U128_BOUND then new product
  else .err "U256 to u128 conversion overflow (mul)"

/-- `FixedPoint64::div`: `(x << 64) / y` via 256-bit intermediates, failing
on a zero divisor or on a result exceeding `u128`. -/
def div (x y : Nat) : RustRes Nat :=
  if y = 0 then .err "Zero division"
  else
    let result := (x * 2 ^ 64) / y
    if result < U128_BOUND then new result
    else .err "U256 to u128 conversion overflow (div)"

/-- One step of the `pow_raw` square-and-multiply loop, structurally recursive
on the bits of the exponent (`fuel` bounds the bit length; 128 covers every
`u128` exponent).  `res` and `x` are Q64.64 values held in 256 bits; the
source right-shifts by 64 after every checked multiplication. -/
def pow_raw_loop (fuel : Nat) (res x n : Nat) : RustRes Nat :=
  match fuel with
  | 0 => if n = 0 then .ok res else .err "pow_raw fuel exhausted"
  | fuel + 1 =>
      if n = 0 then .ok res
      else do
        let res ←
          if n % 2 = 1 then
            if res * x < U256_BOUND then pure ((res * x) >>> 64)
            else RustRes.err "Multiplication overflow (pow_raw_1)"
          else pure res
        if x * x < U256_BOUND then pow_raw_loop fuel res ((x * x) >>> 64) (n / 2)
        else .err "Multiplication overflow (pow_raw)"

/-- `pow_raw(x, n)`: Q64.64 binary exponentiation over 256-bit accumulators,
starting from `1 << 64`. -/
def pow_raw (x n : Nat) : RustRes Nat :=
  pow_raw_loop 128 (1 <<< 64) x n

/-- `FixedPoint64::pow(exponent: u32)`: `pow_raw` followed by the `u128`
conversion check. -/
def pow (x exponent : Nat) : RustRes Nat := do
  let raw ← pow_raw x exponent
  if raw < U128_BOUND then new raw
  else .err "U256 to u128 conversion overflow (pow)"

/-- The halving scan of `floor_log2`: one pass for each window width
`n ∈ [64, 32, 16, 8, 4, 2, 1]`. -/
def floor_log2_step (acc : Nat × Nat) (n : Nat) : Nat × Nat :=
  if 2 ^ n ≤ acc.1 then (acc.1 >>> n, acc.2 + n) else acc

/-- `floor_log2(x: u128)`: integer binary logarithm, failing on zero. -/
def floor_log2 (x : Nat) : RustRes Nat :=
  if x = 0 then .err "Log of zero"
  else .ok (([64, 32, 16, 8, 4, 2, 1].foldl floor_log2_step (x, 0)).2)

/-- The 64-round bit-extraction loop of `log2_64`: repeatedly square the
normalised mantissa (checked in `u128`) and collect fraction bits while
`delta ≠ 0`.  `fuel = 65` covers the 64 halvings of `delta = 2 ^ 63`. -/
def log2_frac_loop (fuel x frac delta : Nat) : RustRes Nat :=
  match fuel with
  | 0 => .ok frac
  | fuel + 1 =>
      if delta = 0 then .ok frac
      else
        if x * x < U128_BOUND then
          let x := (x * x) >>> 63
          if 2 ^ 64 ≤ x then log2_frac_loop fuel (x >>> 1) (frac + delta) (delta >>> 1)
          else log2_frac_loop fuel x frac (delta >>> 1)
        else .err "Multiplication overflow"

/-- `log2_64(x)`: normalise `x` into `[2 ^ 63, 2 ^ 64)`, then extract 64
fraction bits; the result is `integer_part << 64 + frac` (the checked shift
and addition of the source cannot fail for `integer_part < 128`). -/
def log2_64 (x : Nat) : RustRes Nat := do
  let integer_part ← floor_log2 x
  let x :=
    if 2 ^ 63 ≤ x then x >>> (integer_part - 63)
    else x <<< (63 - integer_part)
  let frac ← log2_frac_loop 65 x 0 (1 <<< 63)
  new (integer_part * 2 ^ 64 + frac)

/-- `ln_plus_64ln2`: `log2_64(value) * LN2 >> 64` via 256-bit intermediates,
with the `u128` conversion check. -/
def ln_plus_64ln2 (value : Nat) : RustRes Nat := do
  let x ← log2_64 value
  let result := (x * LN2) >>> 64
  if result < U128_BOUND then new result
  else .err "U256 to u128 conversion overflow (pow)"

end FixedPoint64

/-- `sort_descending` from `fixed_point.rs`: insertion sort into descending
order.  The source sorts a buffer in place by swapping adjacent elements;
its result is the unique descending-ordered permutation, modelled here by
`List.insertionSort` with the reversed order. -/
def sort_descending (l : List Nat) : List Nat :=
  List.insertionSort (· ≥ ·) l

namespace FixedPoint64

/-- The trailing phase of `multiply_divide`: divide by each remaining
denominator in turn, propagating division failures. -/
def div_rest (acc : Nat) : List Nat → RustRes Nat
  | [] => .ok acc
  | d :: ds =>
      match div acc d with
      | .ok r => div_rest r ds
      | .err e => .err e
      | .abort e => .abort e

/-- The main loop of `multiply_divide`.  The source walks both sorted
buffers by an index that starts at the length and decreases, i.e. it
consumes each buffer from its back; the embedding therefore receives the
buffers already reversed and consumes them from the front.  On a
multiplication failure (only overflow is possible) it divides by the next
unconsumed denominator and retries the same numerator.  `fuel` bounds the
total number of consumed elements (`ns.length + ds.length` at the call
site), so the fuel-exhaustion branch is unreachable. -/
def md_loop : Nat → List Nat → List Nat → Nat → RustRes Nat
  | _, [], ds, acc => div_rest acc ds
  | 0, _ :: _, _, _ => .err "md_loop fuel exhausted"
  | fuel + 1, n :: ns, ds, acc =>
      match mul acc n with
      | .ok r => md_loop fuel ns ds r
      | _ =>
          match ds with
          | [] => .err "Multiplication overflow"
          | d :: ds =>
              match div acc d with
              | .ok r => md_loop fuel (n :: ns) ds r
              | .err e => .err e
              | .abort e => .abort e

/-- `multiply_divide(numerators, denominators)` from `fixed_point.rs`:
`Π numerators / Π denominators` in Q64.64, scheduling the operations as in
the source (sort both lists descending, then consume each from the back,
dividing early on overflow). -/
def multiply_divide (numerators denominators : List Nat) : RustRes Nat :=
  if numerators = [] then .err "No numerators"
  else
    let ns := sort_descending numerators
    let ds := sort_descending denominators
    md_loop (ns.length + ds.length) ns.reverse ds.reverse SCALE_64

end FixedPoint64

/-! ## Legacy quoter (`omm_v2_legacy.rs`, Quoter A) -/

/-- `decimal_to_fixedpoint64` from `math/mod.rs`: upscale the raw WAD value
by `2 ^ 64`, downscale by `WAD`, and check the result fits `u128`.  (The
256-bit product cannot overflow for any raw `Decimal` value produced from
`u64` amounts, per the source comment.) -/
def decimal_to_fixedpoint64 (d : Nat) : RustRes Nat :=
  let scaled_value := d * SCALE_64 / WAD
  if scaled_value > U128_BOUND - 1 then
    .err "Failed to convert decimal to fixed point: value too large"
  else FixedPoint64.new scaled_value

namespace OmmV2Legacy

open FixedPoint64

/-- `compute_f(z, a, k)` from `omm_v2_legacy.rs`: magnitude and sign of
`f(z) = z * (1 - 1/A) + (1/A) * (-ln(1 - z)) - k`, where `-ln(1 - z)` is
`64 ln 2 - ln_plus_64ln2(1 - z)`; fails if `ln_plus_64ln2(1 - z)` exceeds
`64 ln 2`. -/
def compute_f (z a k : Nat) : RustRes (Nat × Bool) := do
  let one := SCALE_64
  let sixty_four ← from_u128 64
  let ln2_64 ← mul LN2 sixty_four
  let one_div_a ← div one a
  let t ← sub one one_div_a
  let term1 ← mul z t
  let one_minus_z ← sub one z
  let lnv ← ln_plus_64ln2 one_minus_z
  if lnv > ln2_64 then .err "ln_plus_64ln2 > ln2_64 (code 999)"
  else do
    let ln_magnitude ← sub ln2_64 lnv
    let term2_magnitude ← mul one_div_a ln_magnitude
    let intermediate_magnitude ← add term1 term2_magnitude
    if intermediate_magnitude ≥ k then do
      let m ← sub intermediate_magnitude k
      pure (m, true)
    else do
      let m ← sub k intermediate_magnitude
      pure (m, false)

/-- `compute_f_prime(z, a)`: `(1 - 1/A) + 1 / (A * (1 - z))`. -/
def compute_f_prime (z a : Nat) : RustRes Nat := do
  let one := SCALE_64
  let one_div_a ← div one a
  let omz ← sub one z
  let den ← mul a omz
  let term3 ← div one den
  let t ← sub one one_div_a
  add t term3

/-- One iteration body plus recursion of `newton_raphson`'s damped loop
(`fuel` plays the role of `max_iter - i`).  Exactly as in the source: break
(returning the current `z`) when `|f| < tol`; fail when `f' < 10⁻¹⁰`; take a
damped step, clamp into `[min_z, max_z]` when the raw step leaves `(0, 1)`;
break **without** updating `z` when the step size falls under `tol`. -/
def newton_loop (fuel z k a one min_z max_z tol half : Nat) : RustRes Nat :=
  match fuel with
  | 0 => .ok z
  | fuel + 1 => do
      let fx ← compute_f z a k
      if fx.1 < tol then .ok z
      else do
        let fp ← compute_f_prime z a
        let floor10 ← from_rational 1 10000000000
        if fp < floor10 then .err "Derivative near zero (error code 1001)"
        else do
          let fx_div_fp ← div fx.1 fp
          let alpha := if fx_div_fp ≥ one then half else one
          let step ← mul fx_div_fp alpha
          let new_z ← if fx.2 then sub z step else add z step
          let new_z ←
            if new_z ≤ 0 ∨ new_z ≥ one then do
              let damped_step ← mul fx_div_fp half
              let temp_z ← if fx.2 then sub z damped_step else add z damped_step
              pure (if temp_z < min_z then min_z
                    else if temp_z > max_z then max_z else temp_z)
            else pure new_z
          let step_size ← if new_z ≥ z then sub new_z z else sub z new_z
          if step_size < tol then .ok z
          else newton_loop fuel new_z k a one min_z max_z tol half

/-- `newton_raphson(k, a, initial_z)` from `omm_v2_legacy.rs`: clamp the
start to `max_z` when `initial_z ≥ 1`, then run at most 20 damped Newton
iterations. -/
def newton_raphson (k a initial_z : Nat) : RustRes Nat := do
  let one := SCALE_64
  let min_z ← from_rational 1 100000
  let max_z ← from_rational 999999999999999999 1000000000000000000
  let tol ← from_rational 1 100000000000000
  let half ← from_rational 1 2
  let z := if initial_z ≥ one then max_z else initial_z
  newton_loop 20 z k a one min_z max_z tol half

/-- `quote_swap_inner` from `omm_v2_legacy.rs`: build the Q64.64 inputs,
form `k` with `multiply_divide`, solve for `z`, scale by the out-reserve
and apply the insufficient-liquidity guard (`δ_out ≥ opposite reserve ↦ 0`). -/
def quote_swap_inner (amount_in reserve_x reserve_y : Nat)
    (price_x price_y : Nat) (decimals_x decimals_y amplifier : Nat)
    (x2y : Bool) : RustRes Nat := do
  let r_x ← from_u128 reserve_x
  let r_y ← from_u128 reserve_y
  let p_x ← decimal_to_fixedpoint64 price_x
  let p_y ← decimal_to_fixedpoint64 price_y
  let amp ← from_u128 amplifier
  let delta_in ← from_u128 amount_in
  let ten ← from_u128 10
  let one := SCALE_64
  let dec_pow ←
    if decimals_y ≤ decimals_x then pow ten (decimals_x - decimals_y)
    else do
      let d ← pow ten (decimals_y - decimals_x)
      FixedPoint64.div one d
  let k ←
    if x2y then multiply_divide [delta_in, p_x] [r_y, p_y, dec_pow]
    else multiply_divide [delta_in, dec_pow, p_y] [r_x, p_x]
  let max_bound ← from_rational 9999999999 10000000000
  let initial_z := if max_bound < k then max_bound else k
  let z ← newton_raphson k amp initial_z
  let delta_out ←
    if x2y then do
      let v ← mul z r_y
      pure (to_u128_down v)
    else do
      let v ← mul z r_x
      pure (to_u128_down v)
  if x2y ∧ delta_out ≥ reserve_y then pure 0
  else if ¬ x2y ∧ delta_out ≥ reserve_x then pure 0
  else pure delta_out

/-- The body of the legacy `quote_swap_no_fees` up to (and excluding) the
final b-token insufficient-liquidity guard: convert the b-token amounts to
underlying, quote, and convert back.  Factored out of the source function so
the pre-guard output has a name. -/
def quote_swap_no_fees_unguarded
    (b_token_amount_in b_token_reserve_x b_token_reserve_y : Nat)
    (price_x price_y : Nat) (decimals_x decimals_y amplifier : Nat)
    (x2y : Bool) (b_token_ratio_x b_token_ratio_y : Nat) : RustRes Nat := do
  let reserve_x ← to_underlying b_token_reserve_x b_token_ratio_x
  let reserve_y ← to_underlying b_token_reserve_y b_token_ratio_y
  if x2y then do
    let amount_in ← to_underlying b_token_amount_in b_token_ratio_x
    let out ← quote_swap_inner amount_in reserve_x reserve_y price_x price_y
      decimals_x decimals_y amplifier x2y
    to_b_token out b_token_ratio_y
  else do
    let amount_in ← to_underlying b_token_amount_in b_token_ratio_y
    let out ← quote_swap_inner amount_in reserve_x reserve_y price_x price_y
      decimals_x decimals_y amplifier x2y
    to_b_token out b_token_ratio_x

/-- `quote_swap_no_fees` from `omm_v2_legacy.rs`: the unguarded quote
followed by the final b-token insufficient-liquidity guard
(`out ≥ opposite b-token reserve ↦ 0`). -/
def quote_swap_no_fees (b_token_amount_in b_token_reserve_x b_token_reserve_y : Nat)
    (price_x price_y : Nat) (decimals_x decimals_y amplifier : Nat)
    (x2y : Bool) (b_token_ratio_x b_token_ratio_y : Nat) : RustRes Nat := do
  let amount_out_b_token ← quote_swap_no_fees_unguarded b_token_amount_in
    b_token_reserve_x b_token_reserve_y price_x price_y decimals_x decimals_y
    amplifier x2y b_token_ratio_x b_token_ratio_y
  if x2y ∧ amount_out_b_token ≥ b_token_reserve_y then pure 0
  else if ¬ x2y ∧ amount_out_b_token ≥ b_token_reserve_x then pure 0
  else pure amount_out_b_token

/-- `quote_swap` from `omm_v2_legacy.rs`: quote without fees, then apply the
fee shell with no override numerator. -/
def quote_swap (b_token_amount_in b_token_reserve_x b_token_reserve_y : Nat)
    (price_x price_y : Nat) (decimals_x decimals_y amplifier : Nat)
    (x2y : Bool) (b_token_ratio_x b_token_ratio_y swap_fee_bps : Nat) :
    RustRes SwapQuote := do
  let amount_out_btoken ← quote_swap_no_fees b_token_amount_in
    b_token_reserve_x b_token_reserve_y price_x price_y decimals_x decimals_y
    amplifier x2y b_token_ratio_x b_token_ratio_y
  get_quote b_token_amount_in amount_out_btoken x2y swap_fee_bps none

end OmmV2Legacy

/-! ## New quoter (`omm_v2_new.rs`, Quoter B)

All solver arithmetic is 256-bit unsigned.  Operations that panic in the
source — division by zero, subtraction underflow, a `u64` power or cast
overflow, and solver non-convergence — are modelled as `abort`; the 256-bit
multiplication overflow abort is the one idealisation noted in the header. -/

namespace OmmV2New

/-- Upscaling factor applied to USD quantities (`SCALE = 10 ^ 10`). -/
def SCALE : Nat := 10 ^ 10

/-- Curve amplifier precision (`A_PRECISION = 100`). -/
def A_PRECISION : Nat := 100

/-- Iteration cap of both solvers (`LIMIT = 255`). -/
def LIMIT : Nat := 255

/-- `split_price` from `omm_v2_new.rs`: floor the price to its `u64` integer
part and return `(integer part, ⌊1 / fractional part⌋)`, with `none` for the
inverted part when the price is an integer. -/
def split_price (price : Nat) : RustRes (Nat × Option Nat) := do
  let price_integer_part ←
    match Decimal.checked_floor_u64 price with
    | some v => pure v
    | none => RustRes.err "Failed to get integer part of price"
  let price_decimal_part ←
    match Decimal.checked_sub price (Decimal.ofU64 price_integer_part) with
    | some v => pure v
    | none => RustRes.err "Failed to get decimal part of price"
  if price_decimal_part = Decimal.ofU64 0 then
    pure (price_integer_part, none)
  else do
    let inverted ←
      match Decimal.checked_div (Decimal.ofU64 1) price_decimal_part with
      | some v => pure v
      | none => RustRes.err "Failed to invert decimal part of price"
    let inverted_floor ←
      match Decimal.checked_floor_u64 inverted with
      | some v => pure v
      | none => RustRes.err "Failed to floor inverted decimal part of price"
    pure (price_integer_part, some inverted_floor)

/-- `to_usd`: `amount * i + amount / inv` for a split price `(i, some inv)`,
or `amount * i` for an integer price. -/
def to_usd (amount price_integer_part : Nat)
    (price_decimal_part_inverted : Option Nat) : Nat :=
  match price_decimal_part_inverted with
  | some inv => amount * price_integer_part + amount / inv
  | none => amount * price_integer_part

/-- `from_usd`: `usd * inv / (i * inv + 1)` for a split price `(i, some inv)`,
or `usd / i` for an integer price (the latter divides by zero — a panic —
when the integer part is zero). -/
def from_usd (usd_amount price_integer_part : Nat)
    (price_decimal_part_inverted : Option Nat) : RustRes Nat :=
  match price_decimal_part_inverted with
  | some inv => .ok (usd_amount * inv / (price_integer_part * inv + 1))
  | none =>
      if price_integer_part = 0 then .abort "from_usd: division by zero"
      else .ok (usd_amount / price_integer_part)

/-- The body-and-recursion of `get_d`'s convergence loop: compute
`d_p = d * d / reserve_a * d / reserve_b / 4`, take the Curve update step,
and stop at the first iterate within distance 1 of the previous one.
Divisions by zero and the `ann - A_PRECISION` underflow panic. -/
def get_d_loop (fuel sum ann reserve_a reserve_b d : Nat) : RustRes Nat :=
  match fuel with
  | 0 => .abort "get_d did not converge"
  | fuel + 1 =>
      if reserve_a = 0 ∨ reserve_b = 0 then .abort "get_d: division by zero"
      else if ann < A_PRECISION then .abort "get_d: subtraction underflow"
      else
        let d_p := d * d / reserve_a * d / reserve_b / 4
        let numerator := (ann * sum / A_PRECISION + d_p * 2) * d
        let denominator := (ann - A_PRECISION) * d / A_PRECISION + 3 * d_p
        if denominator = 0 then .abort "get_d: division by zero"
        else
          let d' := numerator / denominator
          if d' > d then
            (if d' - d ≤ 1 then .ok d' else get_d_loop fuel sum ann reserve_a reserve_b d')
          else
            (if d - d' ≤ 1 then .ok d' else get_d_loop fuel sum ann reserve_a reserve_b d')

/-- `get_d(reserve_a, reserve_b, amp)` from `omm_v2_new.rs`: the Curve `D`
invariant for two coins.  Note the source doubles its `amp` argument again
(`ann = amp * 2`) before iterating; non-convergence after 255 rounds panics. -/
def get_d (reserve_a reserve_b amp : Nat) : RustRes Nat :=
  get_d_loop LIMIT (reserve_a + reserve_b) (amp * 2) reserve_a reserve_b
    (reserve_a + reserve_b)

/-- The convergence loop of `get_y`: `y ← (y² + c) / (2y + b - d)` until two
consecutive iterates are within distance 1.  The `(2y + b) - d` underflow
and a zero denominator panic. -/
def get_y_loop (fuel c b d y : Nat) : RustRes Nat :=
  match fuel with
  | 0 => .abort "get_y did not converge"
  | fuel + 1 =>
      if 2 * y + b < d then .abort "get_y: subtraction underflow"
      else if 2 * y + b - d = 0 then .abort "get_y: division by zero"
      else
        let y' := (y * y + c) / (2 * y + b - d)
        if y' > y then
          (if y' - y ≤ 1 then .ok y' else get_y_loop fuel c b d y')
        else
          (if y - y' ≤ 1 then .ok y' else get_y_loop fuel c b d y')

/-- `get_y(reserve_in, amp, d)` from `omm_v2_new.rs`: the post-trade
out-reserve root of the Curve invariant.  As in `get_d` the source doubles
`amp` again (`ann = amp * 2`); `c = (d² / (2 reserve_in)) * d * A_PRECISION /
(2 ann)` and `b = reserve_in + d * A_PRECISION / ann`; non-convergence after
255 rounds panics. -/
def get_y (reserve_in amp d : Nat) : RustRes Nat :=
  let ann := amp * 2
  if reserve_in = 0 ∨ ann = 0 then .abort "get_y: division by zero"
  else
    let c := d * d / (2 * reserve_in) * d * A_PRECISION / (ann * 2)
    let b := reserve_in + d * A_PRECISION / ann
    get_y_loop LIMIT c b d d

/-- `10_u64.pow(e)`: panics when the power overflows `u64`. -/
def u64_pow10 (e : Nat) : RustRes Nat :=
  if 10 ^ e < U64_BOUND then .ok (10 ^ e) else .abort "u64 pow overflow"

/-- `U256::as_u64`: panics when the value exceeds `u64`. -/
def as_u64 (v : Nat) : RustRes Nat :=
  if v < U64_BOUND then .ok v else .abort "as_u64 overflow"

/-- The body of the new `quote_swap_no_fees` up to (and excluding) the
b-token insufficient-liquidity guard that ends each direction branch of the
source: scale reserves and input to USD via the split prices, solve
`get_d` / `get_y`, convert back, subtract the 1-unit rounding margin (a
`u64` subtraction that panics on underflow), and re-wrap. -/
def quote_swap_no_fees_unguarded
    (b_token_amount_in b_token_reserve_x b_token_reserve_y : Nat)
    (price_x price_y : Nat) (decimals_x decimals_y amplifier : Nat)
    (x2y : Bool) (b_token_ratio_x b_token_ratio_y : Nat) : RustRes Nat := do
  let amount_in ← to_underlying b_token_amount_in
    (if x2y then b_token_ratio_x else b_token_ratio_y)
  let reserve_x ← to_underlying b_token_reserve_x b_token_ratio_x
  let reserve_y ← to_underlying b_token_reserve_y b_token_ratio_y
  let px ← split_price price_x
  let py ← split_price price_y
  let pow_x ← u64_pow10 decimals_x
  let pow_y ← u64_pow10 decimals_y
  let scaled_usd_reserve_x := to_usd (reserve_x * SCALE) px.1 px.2 / pow_x
  let scaled_usd_reserve_y := to_usd (reserve_y * SCALE) py.1 py.2 / pow_y
  if amplifier * 2 ≥ 2 ^ 32 then .abort "u32 mul overflow" else do
  let scaled_amp := amplifier * 2 * A_PRECISION
  let d ← get_d scaled_usd_reserve_x scaled_usd_reserve_y scaled_amp
  let scaled_amount_in := amount_in * SCALE
  if x2y then do
    let scaled_usd_amount_in := to_usd scaled_amount_in px.1 px.2 / pow_x
    let y ← get_y (scaled_usd_reserve_x + scaled_usd_amount_in) scaled_amp d
    let r ← from_usd y py.1 py.2
    let reserve_out_after_trade ← as_u64 (r * pow_y / SCALE)
    if reserve_y < reserve_out_after_trade + 1 then
      .abort "u64 subtraction underflow"
    else do
      let amount_out_underlying := reserve_y - reserve_out_after_trade - 1
      to_b_token amount_out_underlying b_token_ratio_y
  else do
    let scaled_usd_amount_in := to_usd scaled_amount_in py.1 py.2 / pow_y
    let y ← get_y (scaled_usd_reserve_y + scaled_usd_amount_in) scaled_amp d
    let r ← from_usd y px.1 px.2
    let reserve_out_after_trade ← as_u64 (r * pow_x / SCALE)
    if reserve_x < reserve_out_after_trade + 1 then
      .abort "u64 subtraction underflow"
    else do
      let amount_out_underlying := reserve_x - reserve_out_after_trade - 1
      to_b_token amount_out_underlying b_token_ratio_x

/-- `quote_swap_no_fees` from `omm_v2_new.rs` (Quoter B): the unguarded
quote followed by the guard that zeroes the output when it strictly exceeds
the out-side b-token reserve. -/
def quote_swap_no_fees (b_token_amount_in b_token_reserve_x b_token_reserve_y : Nat)
    (price_x price_y : Nat) (decimals_x decimals_y amplifier : Nat)
    (x2y : Bool) (b_token_ratio_x b_token_ratio_y : Nat) : RustRes Nat := do
  let amount_out_btoken ← quote_swap_no_fees_unguarded b_token_amount_in
    b_token_reserve_x b_token_reserve_y price_x price_y decimals_x decimals_y
    amplifier x2y b_token_ratio_x b_token_ratio_y
  if x2y then
    (if amount_out_btoken > b_token_reserve_y then pure 0
     else pure amount_out_btoken)
  else
    (if amount_out_btoken > b_token_reserve_x then pure 0
     else pure amount_out_btoken)

/-- `price_uncertainty_ratio` from `omm_v2_new.rs`:
`⌊confidence * BPS_SCALE / price⌋` as a `u64`. -/
def price_uncertainty_ratio (price price_confidence : Nat) : RustRes Nat := do
  let m ←
    match Decimal.checked_mul price_confidence (Decimal.ofU64 BPS_SCALE) with
    | some v => pure v
    | none => RustRes.err "Multiplication failed"
  let q ←
    match Decimal.checked_div m price with
    | some v => pure v
    | none => RustRes.err "Division failed"
  match Decimal.checked_floor_u64 q with
  | some v => pure v
  | none => RustRes.err "Floor failed"

/-- `quote_swap` from `omm_v2_new.rs`: quote without fees, then apply the
fee shell with the confidence-based override numerator
`max(ur_x, ur_y)`. -/
def quote_swap (b_token_amount_in b_token_reserve_x b_token_reserve_y : Nat)
    (price_x price_y : Nat) (decimals_x decimals_y amplifier : Nat)
    (x2y : Bool) (b_token_ratio_x b_token_ratio_y swap_fee_bps : Nat)
    (price_confidence_a price_confidence_b : Nat) : RustRes SwapQuote := do
  let amount_out_btoken ← quote_swap_no_fees b_token_amount_in
    b_token_reserve_x b_token_reserve_y price_x price_y decimals_x decimals_y
    amplifier x2y b_token_ratio_x b_token_ratio_y
  let ur_a ← price_uncertainty_ratio price_x price_confidence_a
  let ur_b ← price_uncertainty_ratio price_y price_confidence_b
  get_quote b_token_amount_in amount_out_btoken x2y swap_fee_bps
    (some (max ur_a ur_b))

end OmmV2New

/-! ## The pool value object and dispatcher (`omm/mod.rs`) -/

/-- The two quoter variants of `SteammPool`. -/
inductive QuoterType where
  | ommv2Legacy
  | ommv2
deriving DecidableEq, Repr

/-- `SteammPool` from `omm/mod.rs`. -/
structure SteammPool where
  b_token_reserve_x : Nat
  b_token_reserve_y : Nat
  decimals_x : Nat
  decimals_y : Nat
  amplifier : Nat
  swap_fee_bps : Nat
  quoter_type : QuoterType
deriving DecidableEq, Repr

/-- `SteammPool::quote_swap` from `omm/mod.rs`: dispatch on the quoter type.
The `Ommv2` arm calls `price_confidence_a.unwrap()` and
`price_confidence_b.unwrap()` while building the argument list, so a missing
confidence panics before any quoting; the `Ommv2Legacy` arm never reads the
confidence arguments. -/
def SteammPool.quote_swap (pool : SteammPool) (b_token_amount_in : Nat)
    (price_x price_y : Nat) (x2y : Bool)
    (b_token_ratio_x b_token_ratio_y : Nat)
    (price_confidence_a price_confidence_b : Option Nat) : RustRes SwapQuote :=
  match pool.quoter_type with
  | .ommv2Legacy =>
      OmmV2Legacy.quote_swap b_token_amount_in pool.b_token_reserve_x
        pool.b_token_reserve_y price_x price_y pool.decimals_x pool.decimals_y
        pool.amplifier x2y b_token_ratio_x b_token_ratio_y pool.swap_fee_bps
  | .ommv2 =>
      match price_confidence_a with
      | none => .abort "called Option unwrap on a None value"
      | some ca =>
          match price_confidence_b with
          | none => .abort "called Option unwrap on a None value"
          | some cb =>
              OmmV2New.quote_swap b_token_amount_in pool.b_token_reserve_x
                pool.b_token_reserve_y price_x price_y pool.decimals_x
                pool.decimals_y pool.amplifier x2y b_token_ratio_x
                b_token_ratio_y pool.swap_fee_bps ca cb

/-! ## Helper lemmas -/

theorem RustRes.bind_eq_ok {α β : Type} {x : RustRes α} {f : α → RustRes β}
    {v : β} : x >>= f = .ok v ↔ ∃ a, x = .ok a ∧ f a = .ok v := by
  cases x <;> simp [Bind.bind, RustRes.bind]

theorem RustRes.pure_eq_ok {α : Type} {a v : α} :
    (pure a : RustRes α) = .ok v ↔ a = v := by
  simp [Pure.pure]

/-- Rounding `a * n / d` up cannot exceed `a` when the fraction `n / d` is
at most one. -/
theorem num_divide_and_round_up_mul_le (a n d : Nat) (hd : 0 < d) (hn : n ≤ d) :
    num_divide_and_round_up (a * n) d ≤ a := by
  unfold num_divide_and_round_up
  have hle : a * n / d ≤ a := by
    calc a * n / d ≤ a * d / d := Nat.div_le_div_right (Nat.mul_le_mul_left a hn)
    _ = a := Nat.mul_div_cancel a hd
  split
  · exact hle
  · rename_i hmod
    rcases Nat.lt_or_ge (a * n / d) a with hlt | hge
    · omega
    · exfalso
      have h1 : d * a ≤ d * (a * n / d) := Nat.mul_le_mul_left d hge
      have h2 : a * n / d * d ≤ a * n := Nat.div_mul_le_self (a * n) d
      have h3 : a * n ≤ a * d := Nat.mul_le_mul_left a hn
      have h4 : a * n = a * d := by
        have := Nat.mul_comm d (a * n / d)
        have := Nat.mul_comm a d
        omega
      have h5 : a * n % d = 0 := by
        rw [h4]
        exact Nat.mul_mod_left a d
      exact hmod h5

/-! ## C1: fee decomposition of `get_quote` -/

/-- C1 (counterexample): with gross `amount_out = 100`, `swap_fee_bps = 0`
and fee-override numerator `20000` the fee computation succeeds with
`protocol_fees = 40`, `pool_fees = 160`, yet the net `amount_out` saturates
at `0` and `0 + 40 + 160 = 200 > 100`, so the claimed bound
`amount_out + protocol_fees + pool_fees ≤ gross` fails. -/
theorem get_quote_fees_sum_counterexample :
    compute_swap_fees 100 0 (some 20000) = .ok (40, 160) ∧
    get_quote 7 100 true 0 (some 20000) = .ok ⟨7, 0, 40, 160, true⟩ ∧
    ¬ (0 + 40 + 160 ≤ 100) := by decide

/-- C1 (amended): when the pool-fee fraction actually selected is at most
one — `swap_fee_bps ≤ BPS_SCALE` and any override numerator `≤ BPS_SCALE` —
the fee computation succeeds for every `u64` gross `amount_out`, and the
quote satisfies `protocol_fees = ⌈total_fees * 2000 / 10000⌉`,
`pool_fees = total_fees - protocol_fees` with
`total_fees = ⌈amount_out * pool_num / pool_den⌉`, and
`amount_out_net + protocol_fees + pool_fees ≤ gross`. -/
theorem get_quote_fees_decomposition (amount_in amount swap_fee_bps : Nat)
    (override_num : Option Nat) (a2b : Bool)
    (hamt : amount < U64_BOUND) (hbps : swap_fee_bps ≤ BPS_SCALE)
    (hovr : ∀ o, override_num = some o → o ≤ BPS_SCALE) :
    ∃ q, get_quote amount_in amount a2b swap_fee_bps override_num = .ok q ∧
      q.protocol_fees =
        num_divide_and_round_up
          (num_divide_and_round_up
            (amount * (select_pool_fee swap_fee_bps override_num).1)
            (select_pool_fee swap_fee_bps override_num).2
            * PROTOCOL_FEE_NUMERATOR) BPS_SCALE ∧
      q.pool_fees =
        num_divide_and_round_up
          (amount * (select_pool_fee swap_fee_bps override_num).1)
          (select_pool_fee swap_fee_bps override_num).2 - q.protocol_fees ∧
      q.amount_out + q.protocol_fees + q.pool_fees ≤ amount := by
  have hB : (0 : Nat) < BPS_SCALE := by decide
  have hnd : (select_pool_fee swap_fee_bps override_num).1 ≤ BPS_SCALE ∧
      (select_pool_fee swap_fee_bps override_num).2 = BPS_SCALE := by
    cases override_num with
    | none => exact ⟨hbps, rfl⟩
    | some o =>
        have ho := hovr o rfl
        simp only [select_pool_fee]
        split <;> exact ⟨by assumption, rfl⟩
  set nd := select_pool_fee swap_fee_bps override_num with hnd_def
  set total := num_divide_and_round_up (amount * nd.1) nd.2 with htot_def
  have htot_le : total ≤ amount := by
    rw [htot_def, hnd.2]
    exact num_divide_and_round_up_mul_le amount nd.1 BPS_SCALE hB
      (by rw [← hnd.2]; exact hnd.2 ▸ hnd.1)
  set protocol := num_divide_and_round_up (total * PROTOCOL_FEE_NUMERATOR)
    BPS_SCALE with hprot_def
  have hprot_le : protocol ≤ total := by
    rw [hprot_def]
    exact num_divide_and_round_up_mul_le total PROTOCOL_FEE_NUMERATOR BPS_SCALE
      hB (by decide)
  have h1 : safe_mul_div_up amount nd.1 nd.2 = .ok total := by
    rw [safe_mul_div_up, hnd.2]
    have hz : ¬ (BPS_SCALE = 0) := by decide
    have hlt : ¬ (num_divide_and_round_up (amount * nd.1) BPS_SCALE >
        U64_BOUND - 1) := by
      have : total < U64_BOUND := lt_of_le_of_lt htot_le hamt
      rw [htot_def, hnd.2] at this
      omega
    simp [hz, hlt, htot_def, hnd.2]
  have h2 : safe_mul_div_up total PROTOCOL_FEE_NUMERATOR BPS_SCALE =
      .ok protocol := by
    rw [safe_mul_div_up]
    have hne : ¬ (BPS_SCALE = 0) := by decide
    have hlt : ¬ (num_divide_and_round_up (total * PROTOCOL_FEE_NUMERATOR)
        BPS_SCALE > U64_BOUND - 1) := by
      have : protocol < U64_BOUND :=
        lt_of_le_of_lt (le_trans hprot_le htot_le) hamt
      rw [hprot_def] at this
      omega
    simp [hne, hlt, hprot_def]
  have hfees : compute_swap_fees amount swap_fee_bps override_num =
      .ok (protocol, total - protocol) := by
    rw [compute_swap_fees, ← hnd_def]
    rw [show (do
      let nd := nd
      let total_fees ← safe_mul_div_up amount nd.1 nd.2
      let protocol_fees ← safe_mul_div_up total_fees PROTOCOL_FEE_NUMERATOR
        BPS_SCALE
      pure (protocol_fees, total_fees - protocol_fees) : RustRes (Nat × Nat)) =
      (safe_mul_div_up amount nd.1 nd.2 >>= fun total_fees =>
        safe_mul_div_up total_fees PROTOCOL_FEE_NUMERATOR BPS_SCALE >>=
          fun protocol_fees => pure (protocol_fees, total_fees - protocol_fees))
      from rfl]
    rw [h1]
    show (safe_mul_div_up total PROTOCOL_FEE_NUMERATOR BPS_SCALE >>=
      fun protocol_fees => pure (protocol_fees, total - protocol_fees)) = _
    rw [h2]
    rfl
  refine ⟨⟨amount_in, amount - protocol - (total - protocol), protocol,
    total - protocol, a2b⟩, ?_, rfl, rfl, ?_⟩
  · rw [get_quote, hfees]
  · show amount - protocol - (total - protocol) + protocol + (total - protocol) ≤ amount
    omega

/-- C1 (witness): the amended theorem at `amount_in = 5`, gross `100`,
`swap_fee_bps = 100`, no override. -/
theorem get_quote_fees_decomposition_witness :
    ∃ q, get_quote 5 100 true 100 none = .ok q ∧
      q.protocol_fees =
        num_divide_and_round_up
          (num_divide_and_round_up (100 * (select_pool_fee 100 none).1)
            (select_pool_fee 100 none).2 * PROTOCOL_FEE_NUMERATOR) BPS_SCALE ∧
      q.pool_fees =
        num_divide_and_round_up (100 * (select_pool_fee 100 none).1)
          (select_pool_fee 100 none).2 - q.protocol_fees ∧
      q.amount_out + q.protocol_fees + q.pool_fees ≤ 100 :=
  get_quote_fees_decomposition 5 100 100 none true (by decide) (by decide)
    (fun o h => nomatch h)

/-! ## C8: `almost_eq` threshold

The source's own doc comment promises `|self - other| < 10 ^ (18 - precision)`
in the raw scale, but the implementation builds the threshold as
`10 ^ precision`, so the comparison is against the wrong power of ten. -/

/-- C8 (code bug, evaluation at the failing input): at raw values `a = 0`,
`b = 10 ^ 9` with `precision = 6` the code returns `false`, although the
documented threshold `10 ^ (18 - 6) = 10 ^ 12` exceeds the difference
`10 ^ 9`, so the documented behaviour requires `true`. -/
theorem almost_eq_failing_input :
    Decimal.almost_eq 0 (10 ^ 9) 6 = false ∧
    ((10 ^ 9 : Nat) - 0 < 10 ^ (18 - 6)) := by decide

/-! ## C9: solver spot checks -/

/-- C9: the integer invariant solvers reproduce the specified spot values:
`get_d(10 ^ 6, 10 ^ 6, 20000) = 2 * 10 ^ 6`,
`get_d(646604101554903, 430825829860939, 10000) = 1077207198258876` and
`get_y(1010000, 20000, 2000000) = 990000`. -/
theorem get_d_get_y_spot_checks :
    OmmV2New.get_d 1000000 1000000 20000 = .ok 2000000 ∧
    OmmV2New.get_d 646604101554903 430825829860939 10000 =
      .ok 1077207198258876 ∧
    OmmV2New.get_y 1010000 20000 2000000 = .ok 990000 := by decide

/-! ## C10: confidence-argument handling of `SteammPool::quote_swap` -/

/-- C10: on an `Ommv2` pool a missing price-confidence argument makes
`quote_swap` panic (the failed `unwrap`), never an `Err`; on an
`Ommv2Legacy` pool the confidence arguments are never read; and with both
confidences present the `Ommv2` arm reduces to the inner quoter call, so the
unwrap panic is unreachable. -/
theorem quote_swap_confidence_dispatch :
    (∀ (pool : SteammPool) amt px py x2y rx ry cb,
      pool.quoter_type = QuoterType.ommv2 →
        pool.quote_swap amt px py x2y rx ry none cb =
          .abort "called Option unwrap on a None value") ∧
    (∀ (pool : SteammPool) amt px py x2y rx ry ca,
      pool.quoter_type = QuoterType.ommv2 →
        pool.quote_swap amt px py x2y rx ry ca none =
          .abort "called Option unwrap on a None value") ∧
    (∀ (pool : SteammPool) amt px py x2y rx ry ca cb ca' cb',
      pool.quoter_type = QuoterType.ommv2Legacy →
        pool.quote_swap amt px py x2y rx ry ca cb =
          pool.quote_swap amt px py x2y rx ry ca' cb') ∧
    (∀ (pool : SteammPool) amt px py x2y rx ry ca cb,
      pool.quoter_type = QuoterType.ommv2 →
        pool.quote_swap amt px py x2y rx ry (some ca) (some cb) =
          OmmV2New.quote_swap amt pool.b_token_reserve_x pool.b_token_reserve_y
            px py pool.decimals_x pool.decimals_y pool.amplifier x2y rx ry
            pool.swap_fee_bps ca cb) := by
  refine ⟨?_, ?_, ?_, ?_⟩
  · intro pool amt px py x2y rx ry cb h
    simp [SteammPool.quote_swap, h]
  · intro pool amt px py x2y rx ry ca h
    cases ca <;> simp [SteammPool.quote_swap, h]
  · intro pool amt px py x2y rx ry ca cb ca' cb' h
    simp [SteammPool.quote_swap, h]
  · intro pool amt px py x2y rx ry ca cb h
    simp [SteammPool.quote_swap, h]

/-- C10 (witness): the dispatch theorem at a concrete `Ommv2` pool with a
missing first confidence. -/
theorem quote_swap_confidence_dispatch_witness :
    (SteammPool.mk 1 1 0 0 1 0 QuoterType.ommv2).quote_swap 0 1 1 true 1 1
      none none = .abort "called Option unwrap on a None value" :=
  quote_swap_confidence_dispatch.1 (SteammPool.mk 1 1 0 0 1 0 QuoterType.ommv2)
    0 1 1 true 1 1 none rfl

/-! ## C6: swapping zero in

Quoter B computes `amount_out_underlying = reserve_out - reserve_out_after_trade - 1`.
For a zero input on a perfectly balanced pool the solver returns the
out-reserve unchanged, so this `u64` subtraction underflows and the quoter
panics instead of returning a zero quote. -/

/-- C6 (code bug, evaluation at the failing input): on the valid pool with
b-token reserves `1000 / 1000`, decimals `0 / 0`, amplifier `1`, both prices
`1.0`, both ratios `1.0`, swapping `amount_in = 0` x-to-y makes Quoter B
panic on the `reserve_y - reserve_out_after_trade - 1` underflow
(`get_y` returns exactly the scaled out-reserve), instead of returning
`amount_out = 0`. -/
theorem quoter_b_zero_in_failing_input :
    OmmV2New.quote_swap_no_fees 0 1000 1000 (Decimal.ofU64 1) (Decimal.ofU64 1)
      0 0 1 true WAD WAD = .abort "u64 subtraction underflow" := by decide

/-! ## C3: `FixedPoint64` round trips

`from(n)` is built on `u128::checked_shl(64)`, which only rejects shift
amounts of 128 or more: for `n ≥ 2 ^ 64` the high bits are silently
discarded, so `from` always succeeds but the round trip breaks. -/

/-- C3 (counterexample): `from(2 ^ 64)` succeeds with raw value `0`, whose
`to_u128_down` is `0 ≠ 2 ^ 64`; and with `a = 2 ^ 64 + 1`, `b = 2 ^ 64` both
`from_rational(a, b)` (= 1) and `from(b)` (= 0) succeed, their product is
`0`, and `to_u128_down 0 = 0` is neither `a - 1` nor `a`. -/
theorem fixed_point_roundtrip_counterexample :
    (FixedPoint64.from_u128 (2 ^ 64) = .ok 0 ∧
      FixedPoint64.to_u128_down 0 ≠ 2 ^ 64) ∧
    (FixedPoint64.from_rational (2 ^ 64 + 1) (2 ^ 64) = .ok 1 ∧
      FixedPoint64.from_u128 (2 ^ 64) = .ok 0 ∧
      FixedPoint64.mul 1 0 = .ok 0 ∧
      FixedPoint64.to_u128_down 0 ≠ (2 ^ 64 + 1) - 1 ∧
      FixedPoint64.to_u128_down 0 ≠ 2 ^ 64 + 1) := by decide

/-- `from_u128` on a value below `2 ^ 64` does not wrap. -/
theorem from_u128_small (n : Nat) (hn : n < U64_BOUND) :
    FixedPoint64.from_u128 n = .ok (n * 2 ^ 64) := by
  have hlt : n * 2 ^ 64 < U128_BOUND := by
    have h1 : U64_BOUND = 2 ^ 64 := rfl
    have h2 : U128_BOUND = 2 ^ 128 := rfl
    omega
  rw [FixedPoint64.from_u128, Nat.mod_eq_of_lt hlt, FixedPoint64.new,
    if_neg (by omega)]

/-- A successful `from_rational a b` with no wrap in `a << 64` returns the
floored quotient `a * 2 ^ 64 / b`. -/
theorem from_rational_ok_value (a b q : Nat) (hb : ¬ b = 0)
    (ha : a * 2 ^ 64 < U128_BOUND)
    (h : FixedPoint64.from_rational a b = .ok q) : q = a * 2 ^ 64 / b := by
  simp only [FixedPoint64.from_rational, hb, if_false, Nat.mod_eq_of_lt ha,
    FixedPoint64.new] at h
  split at h
  · cases h
  · split at h
    · cases h
    · exact ((RustRes.ok.injEq _ _).mp h).symm

/-- Multiplying a Q64.64 value by an integer `b` (given as `b * 2 ^ 64`) is
exact. -/
theorem mul_by_integer_exact (q b : Nat) (h : q * b < U128_BOUND) :
    FixedPoint64.mul q (b * 2 ^ 64) = .ok (q * b) := by
  have hsh : (q * (b * 2 ^ 64)) >>> 64 = q * b := by
    rw [Nat.shiftRight_eq_div_pow, ← Nat.mul_assoc,
      Nat.mul_div_cancel _ (show 0 < 2 ^ 64 by decide)]
  rw [FixedPoint64.mul, hsh, if_pos h, FixedPoint64.new, if_neg (by omega)]

/-- C3 (amended): `from(n)` succeeds for every `u128` value `n`; the round
trip `to_u128_down (from n) = n` holds for `n < 2 ^ 64`; and for
`0 < b < 2 ^ 64` and `a < 2 ^ 64`, whenever `from_rational(a, b)` succeeds
the product with `from(b)` also succeeds and truncates to `a - 1` or `a`. -/
theorem fixed_point_roundtrip_amended :
    (∀ n : Nat, ∃ v, FixedPoint64.from_u128 n = .ok v) ∧
    (∀ n : Nat, n < U64_BOUND →
      ∃ v, FixedPoint64.from_u128 n = .ok v ∧
        FixedPoint64.to_u128_down v = n) ∧
    (∀ a b q fb : Nat, 0 < b → a < U64_BOUND → b < U64_BOUND →
      FixedPoint64.from_rational a b = .ok q →
      FixedPoint64.from_u128 b = .ok fb →
      ∃ m, FixedPoint64.mul q fb = .ok m ∧
        (FixedPoint64.to_u128_down m = a - 1 ∨
         FixedPoint64.to_u128_down m = a)) := by
  refine ⟨?_, ?_, ?_⟩
  · intro n
    refine ⟨(n * 2 ^ 64) % U128_BOUND, ?_⟩
    have hm : (n * 2 ^ 64) % U128_BOUND < U128_BOUND :=
      Nat.mod_lt _ (by decide)
    rw [FixedPoint64.from_u128, FixedPoint64.new, if_neg (by omega)]
  · intro n hn
    refine ⟨n * 2 ^ 64, from_u128_small n hn, ?_⟩
    show (n * 2 ^ 64) >>> 64 = n
    rw [Nat.shiftRight_eq_div_pow]
    exact Nat.mul_div_cancel n (by decide)
  · intro a b q fb hb ha hblt hq hfb
    have hfb' : fb = b * 2 ^ 64 := by
      rw [from_u128_small b hblt] at hfb
      exact ((RustRes.ok.injEq _ _).mp hfb).symm
    have hsc : a * 2 ^ 64 < U128_BOUND := by
      have h1 : U64_BOUND = 2 ^ 64 := rfl
      have h2 : U128_BOUND = 2 ^ 128 := rfl
      omega
    have hq' : q = a * 2 ^ 64 / b := from_rational_ok_value a b q (by omega) hsc hq
    have hqb_le : q * b ≤ a * 2 ^ 64 := by
      rw [hq']
      exact Nat.div_mul_le_self _ _
    have hqb_lt : q * b < U128_BOUND := lt_of_le_of_lt hqb_le hsc
    refine ⟨q * b, by rw [hfb']; exact mul_by_integer_exact q b hqb_lt, ?_⟩
    show (q * b) >>> 64 = a - 1 ∨ (q * b) >>> 64 = a
    rw [Nat.shiftRight_eq_div_pow]
    have hmod := Nat.div_add_mod (a * 2 ^ 64) b
    set r := a * 2 ^ 64 % b with hr_def
    have hrlt : r < b := Nat.mod_lt _ (by omega)
    have hcomm : q * b = b * (a * 2 ^ 64 / b) := by
      rw [hq', Nat.mul_comm]
    have hqb_eq : q * b = a * 2 ^ 64 - r := by omega
    rcases Nat.eq_zero_or_pos r with hr0 | hrpos
    · right
      rw [hqb_eq, hr0, Nat.sub_zero, Nat.mul_div_cancel a (by decide)]
    · left
      have hapos : 0 < a := by
        rcases Nat.eq_zero_or_pos a with h0 | hp
        · exfalso
          rw [h0] at hr_def
          simp at hr_def
          omega
        · exact hp
      have ha64 : a * 2 ^ 64 = (a - 1) * 2 ^ 64 + 2 ^ 64 := by
        have h1 : a - 1 + 1 = a := Nat.succ_pred_eq_of_pos hapos
        calc a * 2 ^ 64 = (a - 1 + 1) * 2 ^ 64 := by rw [h1]
        _ = (a - 1) * 2 ^ 64 + 2 ^ 64 := by ring
      have hb64 : U64_BOUND = 2 ^ 64 := rfl
      have hsplit : q * b = (a - 1) * 2 ^ 64 + (2 ^ 64 - r) := by omega
      rw [hsplit, Nat.add_comm, Nat.add_mul_div_right _ _
        (show 0 < 2 ^ 64 by decide), Nat.div_eq_of_lt (by omega)]
      omega

/-- C3 (witness): part two of the amended theorem at `n = 7` and part three
at `a = 3`, `b = 2` (where `from_rational 3 2 = 3 * 2 ^ 63` and
`from(2) = 2 * 2 ^ 64`). -/
theorem fixed_point_roundtrip_amended_witness :
    (∃ v, FixedPoint64.from_u128 7 = .ok v ∧
      FixedPoint64.to_u128_down v = 7) ∧
    (∃ m, FixedPoint64.mul (3 * 2 ^ 63) (2 * 2 ^ 64) = .ok m ∧
      (FixedPoint64.to_u128_down m = 3 - 1 ∨
       FixedPoint64.to_u128_down m = 3)) :=
  ⟨fixed_point_roundtrip_amended.2.1 7 (by decide),
   fixed_point_roundtrip_amended.2.2 3 2 (3 * 2 ^ 63) (2 * 2 ^ 64) (by decide)
     (by decide) (by decide) (by decide) (by decide)⟩

/-! ## C2: quoted output never exceeds the opposite b-token reserve -/

/-- C2: whenever `quote_swap_no_fees` returns `Ok(v)` — for either quoter —
`v` is at most the opposite b-token reserve; and whenever the computed
(pre-guard) output meets or exceeds the opposite reserve (legacy quoter,
guard with `≥`) or strictly exceeds the out-side b-token reserve (new
quoter, guard with `>`), the function returns `Ok(0)`, not an error. -/
theorem quoter_output_le_opposite_reserve :
    (∀ a rx ry px py dx dy amp x2y qx qy v,
      OmmV2Legacy.quote_swap_no_fees a rx ry px py dx dy amp x2y qx qy = .ok v →
      v ≤ (if x2y then ry else rx)) ∧
    (∀ a rx ry px py dx dy amp x2y qx qy v,
      OmmV2New.quote_swap_no_fees a rx ry px py dx dy amp x2y qx qy = .ok v →
      v ≤ (if x2y then ry else rx)) ∧
    (∀ a rx ry px py dx dy amp x2y qx qy w,
      OmmV2Legacy.quote_swap_no_fees_unguarded a rx ry px py dx dy amp x2y qx qy
        = .ok w →
      (if x2y then ry else rx) ≤ w →
      OmmV2Legacy.quote_swap_no_fees a rx ry px py dx dy amp x2y qx qy = .ok 0) ∧
    (∀ a rx ry px py dx dy amp x2y qx qy w,
      OmmV2New.quote_swap_no_fees_unguarded a rx ry px py dx dy amp x2y qx qy
        = .ok w →
      (if x2y then ry else rx) < w →
      OmmV2New.quote_swap_no_fees a rx ry px py dx dy amp x2y qx qy = .ok 0) := by
  refine ⟨?_, ?_, ?_, ?_⟩
  · intro a rx ry px py dx dy amp x2y qx qy v h
    rw [OmmV2Legacy.quote_swap_no_fees] at h
    rcases RustRes.bind_eq_ok.mp h with ⟨w, hw, hgu⟩
    split_ifs at hgu with h1 h2 <;>
      rw [RustRes.pure_eq_ok] at hgu <;> subst hgu <;> cases x2y <;>
      simp_all <;> omega
  · intro a rx ry px py dx dy amp x2y qx qy v h
    rw [OmmV2New.quote_swap_no_fees] at h
    rcases RustRes.bind_eq_ok.mp h with ⟨w, hw, hgu⟩
    cases x2y <;> simp only [Bool.false_eq_true, if_true, if_false] at hgu <;>
      split_ifs at hgu with h1 <;>
      rw [RustRes.pure_eq_ok] at hgu <;> subst hgu <;> simp_all
  · intro a rx ry px py dx dy amp x2y qx qy w hw hge
    rw [OmmV2Legacy.quote_swap_no_fees]
    rw [show (OmmV2Legacy.quote_swap_no_fees_unguarded a rx ry px py dx dy amp
      x2y qx qy >>= fun out =>
        if x2y ∧ out ≥ ry then pure 0
        else if ¬ x2y ∧ out ≥ rx then pure 0
        else pure out) =
      (if x2y ∧ w ≥ ry then pure 0
       else if ¬ x2y ∧ w ≥ rx then pure 0
       else pure w) from by rw [hw]; rfl]
    cases x2y <;> simp_all <;> rfl
  · intro a rx ry px py dx dy amp x2y qx qy w hw hgt
    rw [OmmV2New.quote_swap_no_fees]
    rw [show (OmmV2New.quote_swap_no_fees_unguarded a rx ry px py dx dy amp
      x2y qx qy >>= fun out =>
        if x2y then (if out > ry then pure 0 else pure out)
        else (if out > rx then pure 0 else pure out)) =
      (if x2y then (if w > ry then pure 0 else pure w)
       else (if w > rx then pure 0 else pure w)) from by rw [hw]; rfl]
    cases x2y <;> simp_all <;> rfl

/-- C2 (witness): the bound theorem applied at concrete quotes — the legacy
quoter with zero input on a balanced unit pool returns `Ok 0 ≤ 1000`, and
the new quoter with `amount_in = 100` on the same pool returns
`Ok 96 ≤ 1000`. -/
theorem quoter_output_le_opposite_reserve_witness :
    ((0 : Nat) ≤ if true then (1000 : Nat) else 1000) ∧
    ((96 : Nat) ≤ if true then (1000 : Nat) else 1000) :=
  ⟨quoter_output_le_opposite_reserve.1 0 1000 1000 WAD WAD 0 0 1 true WAD WAD
      0 (by decide),
   quoter_output_le_opposite_reserve.2.1 100 1000 1000 WAD WAD 0 0 1 true WAD
      WAD 96 (by decide)⟩

/-! ## C4: the `multiply_divide` schedule

The source sorts both buffers in **descending** order but then walks them by
an index that starts at the length and decreases, so it actually consumes
each buffer smallest-first — the opposite of the claimed largest-first
schedule. -/

/-- Modelled from the spec, as amended (C4): sort both lists in ascending
order, start from `result = 1`, repeatedly multiply by the next smallest
unconsumed numerator, on multiplication overflow instead divide by the next
smallest unconsumed denominator and retry, and once numerators are exhausted
divide by the remaining denominators in ascending order. -/
def multiply_divide_spec (numerators denominators : List Nat) : RustRes Nat :=
  if numerators = [] then .err "No numerators"
  else
    FixedPoint64.md_loop (numerators.length + denominators.length)
      (List.insertionSort (· ≤ ·) numerators)
      (List.insertionSort (· ≤ ·) denominators) SCALE_64

/-- The schedule exactly as the claim words it: both lists sorted descending
and consumed largest-first. -/
def multiply_divide_claim (numerators denominators : List Nat) : RustRes Nat :=
  if numerators = [] then .err "No numerators"
  else
    FixedPoint64.md_loop (numerators.length + denominators.length)
      (sort_descending numerators) (sort_descending denominators) SCALE_64

/-- Reversing the source's descending insertion sort yields the ascending
insertion sort: both are sorted-ascending permutations of the input, and
such a permutation is unique. -/
theorem reverse_sort_descending (l : List Nat) :
    (sort_descending l).reverse = List.insertionSort (· ≤ ·) l := by
  apply List.eq_of_perm_of_sorted (r := fun a b : Nat => a ≤ b)
  · exact ((List.reverse_perm _).trans
      (List.perm_insertionSort _ _)).trans
      (List.perm_insertionSort (· ≤ ·) l).symm
  · rw [List.Sorted, List.pairwise_reverse]
    exact List.sorted_insertionSort (· ≥ ·) l
  · exact List.sorted_insertionSort (· ≤ ·) l

/-- C4 (counterexample): on numerators `[3, 2 ^ 126, 2 ^ 126]` (raw Q64.64
values) with no denominators, the source consumes the small numerator first
and succeeds with `3 * 2 ^ 124`, while the claimed largest-first schedule
overflows `2 ^ 126 * 2 ^ 126` with no denominator left and fails. -/
theorem multiply_divide_order_counterexample :
    FixedPoint64.multiply_divide [3, 2 ^ 126, 2 ^ 126] [] = .ok (3 * 2 ^ 124) ∧
    multiply_divide_claim [3, 2 ^ 126, 2 ^ 126] [] =
      .err "Multiplication overflow" := by decide

/-- C4 (amended): `multiply_divide` follows exactly the amended schedule —
sort both lists ascending, multiply by the next smallest unconsumed
numerator, on overflow divide by the next smallest unconsumed denominator
and retry, then divide by the remaining denominators in ascending order,
failing exactly where that schedule fails (empty numerators, overflow with
no denominators left, or a division step that divides by zero or overflows
on conversion). -/
theorem multiply_divide_matches_spec (numerators denominators : List Nat) :
    FixedPoint64.multiply_divide numerators denominators =
      multiply_divide_spec numerators denominators := by
  rw [FixedPoint64.multiply_divide, multiply_divide_spec]
  by_cases h : numerators = []
  · simp [h]
  · rw [if_neg h, if_neg h]
    show FixedPoint64.md_loop
      ((sort_descending numerators).length + (sort_descending denominators).length)
      (sort_descending numerators).reverse (sort_descending denominators).reverse
      SCALE_64 = _
    rw [reverse_sort_descending, reverse_sort_descending]
    have h1 : (sort_descending numerators).length = numerators.length :=
      (List.perm_insertionSort (· ≥ ·) numerators).length_eq
    have h2 : (sort_descending denominators).length = denominators.length :=
      (List.perm_insertionSort (· ≥ ·) denominators).length_eq
    rw [h1, h2]

/-! ## C5: the `get_d` iteration

The quoting shell passes `scaled_amp = (2 * amplifier) * A_PRECISION`, but
`get_d` doubles this argument again (`ann = amp * 2`) before iterating, so
the `ann` appearing in the update formula is twice the value the claim
names. -/

/-- Modelled from the spec, as amended (C5): starting from `D = R_a + R_b`,
at most 255 iterations of `D_p = D·D/R_a·D/R_b/4` followed by
`D ← [((ann·S/A_PRECISION) + 2·D_p)·D] / [((ann − A_PRECISION)·D/A_PRECISION) + 3·D_p]`
with `S = R_a + R_b`, returning the first `D` whose distance from the
previous iterate is at most 1 and failing on exhaustion.  The zero-divisor
and underflow aborts mirror the source's 256-bit arithmetic panics. -/
def get_d_formula_loop (fuel s ann ra rb d : Nat) : RustRes Nat :=
  match fuel with
  | 0 => .abort "get_d did not converge"
  | fuel + 1 =>
      if ra = 0 ∨ rb = 0 then .abort "get_d: division by zero"
      else if ann < OmmV2New.A_PRECISION then .abort "get_d: subtraction underflow"
      else
        let d_p := d * d / ra * d / rb / 4
        let den := (ann - OmmV2New.A_PRECISION) * d / OmmV2New.A_PRECISION + 3 * d_p
        if den = 0 then .abort "get_d: division by zero"
        else
          let d' := (ann * s / OmmV2New.A_PRECISION + 2 * d_p) * d / den
          if (if d' > d then d' - d else d - d') ≤ 1 then .ok d'
          else get_d_formula_loop fuel s ann ra rb d'

/-- The iteration of the spec with the internal doubling made explicit:
the formula's `ann` is twice the `amp` argument the shell passes. -/
def get_d_spec (reserve_a reserve_b amp : Nat) : RustRes Nat :=
  get_d_formula_loop OmmV2New.LIMIT (reserve_a + reserve_b) (2 * amp)
    reserve_a reserve_b (reserve_a + reserve_b)

/-- The iteration exactly as the claim words it: the formula's `ann` is the
value `(2 * amplifier) * A_PRECISION` passed by the quoting shell, with no
further doubling. -/
def get_d_claim_version (reserve_a reserve_b amp : Nat) : RustRes Nat :=
  get_d_formula_loop OmmV2New.LIMIT (reserve_a + reserve_b) amp
    reserve_a reserve_b (reserve_a + reserve_b)

/-- C5 (counterexample): for `amplifier = 50` the shell passes
`amp = (2 * 50) * 100 = 10000`; on the reserves of the second spot check the
source (which iterates with `ann = 20000`) returns `1077207198258876`,
while the claim's formula iterated with `ann = 10000` returns
`1076989096341218`. -/
theorem get_d_ann_counterexample :
    OmmV2New.get_d 646604101554903 430825829860939 10000 =
      .ok 1077207198258876 ∧
    get_d_claim_version 646604101554903 430825829860939 10000 =
      .ok 1076989096341218 ∧
    (1076989096341218 : Nat) ≠ (1077207198258876 : Nat) := by decide

/-- The source's step-by-step `get_d` loop computes the claim's one-line
formulas: the bodies agree up to commuting `d_p * 2` and merging the
convergence test into a distance test. -/
theorem get_d_loop_eq_formula_loop (fuel : Nat) : ∀ s ann ra rb d,
    OmmV2New.get_d_loop fuel s ann ra rb d =
      get_d_formula_loop fuel s ann ra rb d := by
  induction fuel with
  | zero => intro s ann ra rb d; rfl
  | succ fuel ih =>
      intro s ann ra rb d
      rw [OmmV2New.get_d_loop, get_d_formula_loop]
      split
      · rfl
      · split
        · rfl
        · simp only [Nat.mul_comm _ 2, ih]
          split
          · rfl
          · split <;> rfl

/-- C5 (amended): `get_d` follows the claimed schedule exactly — initial
`D = R_a + R_b`, at most 255 iterations of the displayed `D_p` and `D`
update, first iterate within distance 1 returned, failure on exhaustion —
except that the `ann` appearing in the formula is twice the argument passed
by the quoting shell, i.e. `(4 * amplifier) * A_PRECISION`. -/
theorem get_d_matches_spec (reserve_a reserve_b amp : Nat) :
    OmmV2New.get_d reserve_a reserve_b amp =
      get_d_spec reserve_a reserve_b amp := by
  rw [OmmV2New.get_d, get_d_spec, Nat.mul_comm amp 2]
  exact get_d_loop_eq_formula_loop _ _ _ _ _ _

end SteammOx
